import Mathlib

/-!
Shallow embedding of the mortgage comparison app (mortgage_app.py).

Real-number arithmetic of the script is modelled over ℚ.  Python primitives
are embedded faithfully: round-half-to-even for round(x) and round(x, 2),
truncation toward zero for int(x), and the numpy_financial pmt formula.
The amortization loop is modelled as a balance/interest recursion plus a
row-building function; the optimizer loops become findSome? over the
descending down-payment grid and the ascending point counts.
-/

set_option maxRecDepth 8000
set_option exponentiation.threshold 400

/-- Truncation toward zero, as the Python int() conversion on a real number. -/
def pyInt (q : ℚ) : ℤ := if q < 0 then ⌈q⌉ else ⌊q⌋

/-- Round to the nearest integer with ties to even, as Python round(x). -/
def pyRound (q : ℚ) : ℤ :=
  if q - ⌊q⌋ < 1/2 then ⌊q⌋
  else if (1:ℚ)/2 < q - ⌊q⌋ then ⌊q⌋ + 1
  else if 2 ∣ ⌊q⌋ then ⌊q⌋ else ⌊q⌋ + 1

/-- Round to two decimal places, as Python round(x, 2). -/
def round2 (q : ℚ) : ℚ := (pyRound (q * 100) : ℚ) / 100

/-- The numpy_financial pmt function with fv = 0 and end-of-period payments,
as called by the script: npf.pmt(rate, nper, pv). -/
def npf_pmt (rate : ℚ) (nper : ℤ) (pv : ℚ) : ℚ :=
  let temp := (1 + rate) ^ nper
  let fact := if rate = 0 then (nper : ℚ) else (temp - 1) / rate
  (-(pv * temp)) / fact

/-- Balance after m iterations of the amortization loop:
balance -= payment - balance * monthly_rate. -/
def balAfter (loanAmount pay mr : ℚ) : ℕ → ℚ
  | 0 => loanAmount
  | m + 1 => balAfter loanAmount pay mr m * (1 + mr) - pay

/-- Cumulative interest after m iterations of the amortization loop:
total_interest += balance * monthly_rate (pre-payment balance). -/
def cumInterest (loanAmount pay mr : ℚ) : ℕ → ℚ
  | 0 => 0
  | m + 1 => cumInterest loanAmount pay mr m + balAfter loanAmount pay mr m * mr

/-- One month of the amortization loop before the dict is built:
the exact local variables of iteration m = k + 1 of amortization_schedule. -/
structure RawEntry where
  month : ℕ
  year : ℤ
  payment : ℚ
  principal : ℚ
  interest : ℚ
  totalPayment : ℚ
  balance : ℚ
  totalInterestPaid : ℚ
  pmi : ℚ
  extraCosts : ℚ
  deriving Repr, DecidableEq

/-- The exact values of the loop locals at iteration k (0-based; month = k+1):
interest, principal, post-payment balance, cumulative interest, LTV-gated PMI
from the original loan amount, and the first-month-only extra costs. -/
def rawRow (loanAmount pay mr homePrice pmiRate extraCosts : ℚ) (startYear : ℤ)
    (k : ℕ) : RawEntry :=
  let interest := balAfter loanAmount pay mr k * mr
  let principal := pay - interest
  let balance := balAfter loanAmount pay mr (k + 1)
  let currentLtv := if homePrice > 0 then balance / homePrice else 0
  let currentPmi := if currentLtv > 0.80 then loanAmount * pmiRate / 12 else 0
  { month := k + 1
    year := startYear + (k : ℤ) / 12
    payment := pay
    principal := principal
    interest := interest
    totalPayment := pay + currentPmi
    balance := balance
    totalInterestPaid := cumInterest loanAmount pay mr (k + 1)
    pmi := currentPmi
    extraCosts := if k + 1 = 1 then extraCosts else 0 }

/-- One row of the schedule DataFrame, i.e. the dict appended by the loop,
whose monetary fields are rounded to two decimals. -/
structure Entry where
  month : ℕ
  year : ℤ
  payment : ℚ
  principal : ℚ
  interest : ℚ
  totalPayment : ℚ
  balance : ℚ
  totalInterestPaid : ℚ
  pmi : ℚ
  extraCosts : ℚ
  deriving Repr, DecidableEq

/-- The dict built at the end of each loop iteration: round(_, 2) on each
monetary field, with the balance floored at 0 before rounding. -/
def roundEntry (e : RawEntry) : Entry :=
  { month := e.month
    year := e.year
    payment := round2 e.payment
    principal := round2 e.principal
    interest := round2 e.interest
    totalPayment := round2 e.totalPayment
    balance := round2 (if e.balance > 0 then e.balance else 0)
    totalInterestPaid := round2 e.totalInterestPaid
    pmi := round2 e.pmi
    extraCosts := e.extraCosts }

/-- The schedule list built by the loop for m in range(1, months + 1). -/
def buildRows (loanAmount pay mr homePrice pmiRate extraCosts : ℚ) (startYear : ℤ)
    (months : ℤ) : List Entry :=
  (List.range months.toNat).map fun k =>
    roundEntry (rawRow loanAmount pay mr homePrice pmiRate extraCosts startYear k)

/-- The level payment amortization_schedule settles on: loan_amount / months in
the degenerate branch (loan_amount <= 0 or monthly_rate <= 0, with rate 0),
npf.pmt(monthly_rate, months, -loan_amount) otherwise. -/
def schedulePayment (loanAmount monthlyRate : ℚ) (months : ℤ) : ℚ :=
  if loanAmount ≤ 0 ∨ monthlyRate ≤ 0 then loanAmount / (months : ℚ)
  else npf_pmt monthlyRate months (-loanAmount)

/-- amortization_schedule(loan_amount, annual_rate, term_years, home_price,
start_year, pmi_rate, extra_costs).  The uncaught Python ZeroDivisionError of
loan_amount / months at months = 0 is an error result; the empty DataFrame
returns are the empty list. -/
def amortization_schedule (loanAmount annualRate : ℚ) (termYears : ℤ)
    (homePrice : ℚ) (startYear : ℤ) (pmiRate extraCosts : ℚ) :
    Except String (List Entry) :=
  let monthlyRate := annualRate / 12
  let months : ℤ := termYears * 12
  if loanAmount ≤ 0 ∨ monthlyRate ≤ 0 then
    if monthlyRate = 0 then
      if months = 0 then .error "ZeroDivisionError"
      else .ok (buildRows loanAmount (schedulePayment loanAmount monthlyRate months)
        monthlyRate homePrice pmiRate extraCosts startYear months)
    else .ok []
  else .ok (buildRows loanAmount (schedulePayment loanAmount monthlyRate months)
    monthlyRate homePrice pmiRate extraCosts startYear months)

/-- valid_loan(loan_amount, monthly_payment, max_monthly, total_cash,
down_payment, home_price, pmi_rate).  The cash-on-hand comparison of
down_payment against total_cash is commented out in the source, so those two
arguments are accepted but never read. -/
def valid_loan (loanAmount monthlyPayment maxMonthly totalCash downPayment
    homePrice pmiRate : ℚ) : Bool :=
  if loanAmount ≤ 0 then false
  else if homePrice ≤ 0 then false
  else
    let pmi := if loanAmount / homePrice > 0.80 then loanAmount * pmiRate / 12 else 0
    let totalMonthly := monthlyPayment + pmi
    if totalMonthly > maxMonthly ∨ totalMonthly ≤ 0 then false
    else true

/-- The dict find_best_loan_a returns for a feasible combination. -/
structure LoanConfig where
  downPayment : ℚ
  loanAmount : ℚ
  rate : ℚ
  monthlyPayment : ℚ
  pmi : ℚ
  points : ℕ
  extraCosts : ℚ
  deriving Repr, DecidableEq

/-- Python range(a, b, -step) for a positive step: a, a - step, ... while the
value stays strictly above b. -/
def rangeDown (a b : ℤ) (step : ℕ) : List ℤ :=
  (List.range (if a ≤ b then 0 else (a - b - 1).toNat / step + 1)).map
    fun (k : ℕ) => a - (step : ℤ) * (k : ℤ)

/-- Cost of the discount points: loan_amount * (points * 0.01). -/
def pointCost (loanAmount : ℚ) (points : ℕ) : ℚ := loanAmount * ((points : ℚ) * 0.01)

/-- Rate after buying points: base_rate - 0.0025 * points, floored at 0.02. -/
def pointRate (baseRate : ℚ) (points : ℕ) : ℚ :=
  max (baseRate - 0.0025 * (points : ℚ)) 0.02

/-- The P and I payment the optimizer computes for one candidate: the explicit
zero-rate branch, else npf.pmt(monthly_rate, months, -loan_amount). -/
def pointPayment (loanAmount : ℚ) (months : ℤ) (rate : ℚ) : ℚ :=
  let monthlyRate := rate / 12
  if monthlyRate ≤ 0 ∧ loanAmount > 0 then
    if months > 0 then loanAmount / (months : ℚ) else 0
  else npf_pmt monthlyRate months (-loanAmount)

/-- PMI at origination: loan_amount * pmi_rate / 12 while the original LTV
loan_amount / home_price exceeds 0.80, else 0.  Shared verbatim by
find_best_loan_a and valid_loan. -/
def startPmi (loanAmount homePrice pmiRate : ℚ) : ℚ :=
  if loanAmount / homePrice > 0.80 then loanAmount * pmiRate / 12 else 0

/-- Body of the inner points loop of find_best_loan_a for one candidate
(dp, points): none encodes the two Python continue paths (unaffordable point
cost, or total monthly above the ceiling). -/
def evalPoint (homePrice totalCash maxMonthly pmiRate baseRate : ℚ) (months : ℤ)
    (dp : ℤ) (points : ℕ) : Option LoanConfig :=
  let loanAmount := homePrice - (dp : ℚ)
  let availableCashForPoints := max (totalCash - (dp : ℚ)) 0
  let pc := pointCost loanAmount points
  if pc > availableCashForPoints then none
  else
    let rate := pointRate baseRate points
    let payment := pointPayment loanAmount months rate
    let pmi := startPmi loanAmount homePrice pmiRate
    if payment + pmi ≤ maxMonthly then
      some { downPayment := (dp : ℚ), loanAmount := loanAmount, rate := rate,
             monthlyPayment := payment, pmi := pmi, points := points,
             extraCosts := pc }
    else none

/-- Body of the outer down-payment loop of find_best_loan_a: skip the down
payment when the loan amount is non-positive, else take the first point count
in 0..20 that is affordable and keeps the total monthly under the ceiling. -/
def tryPoints (homePrice totalCash maxMonthly pmiRate baseRate : ℚ) (months : ℤ)
    (dp : ℤ) : Option LoanConfig :=
  if homePrice - (dp : ℚ) ≤ 0 then none
  else (List.range 21).findSome?
    (evalPoint homePrice totalCash maxMonthly pmiRate baseRate months dp)

/-- Upper end of the down-payment search: min(home_price * max_down_pct / 100,
total_cash). -/
def maxDownPayment (homePrice maxDownPct totalCash : ℚ) : ℚ :=
  min (homePrice * maxDownPct / 100) totalCash

/-- Lower end of the down-payment search: home_price * 0.03, clamped to the
upper end (and to 0) when it exceeds it. -/
def minDownPaymentAdj (homePrice maxDownPct totalCash : ℚ) : ℚ :=
  let maxDp := maxDownPayment homePrice maxDownPct totalCash
  let minDp := homePrice * 0.03
  if minDp > maxDp then (if maxDp < 0 then 0 else maxDp) else minDp

/-- The descending down-payment grid of find_best_loan_a:
range(int(max_down_payment), int(min_down_payment) - 1, -1000). -/
def searchGrid (homePrice maxDownPct totalCash : ℚ) : List ℤ :=
  rangeDown (pyInt (maxDownPayment homePrice maxDownPct totalCash))
    (pyInt (minDownPaymentAdj homePrice maxDownPct totalCash) - 1) 1000

/-- find_best_loan_a(home_price, max_down_pct, total_cash, max_monthly,
pmi_rate, base_rate, term_years) with the default point_rate_reduction and
max_points_allowed.  The truthiness guard on home_price is home_price = 0 for
numeric input; the body of the loop replaces a negative dp by 0. -/
def find_best_loan_a (homePrice maxDownPct totalCash maxMonthly pmiRate
    baseRate : ℚ) (termYears : ℤ) : Option LoanConfig :=
  if homePrice = 0 then none
  else
    (searchGrid homePrice maxDownPct totalCash).findSome? fun d =>
      tryPoints homePrice totalCash maxMonthly pmiRate baseRate (termYears * 12)
        (max d 0)

/-- One row of the summary table of get_summary_points. -/
structure YearSummary where
  year : ℤ
  totalPayment : ℤ
  totalInterest : ℤ
  remainingBalance : ℤ
  deriving Repr, DecidableEq

/-- The checkpoint years of get_summary_points. -/
def summaryCheckpointYears : List ℤ := [1, 2, 3, 4, 5, 10, 15, 20, 25, 30]

/-- One checkpoint of get_summary_points: totals over the rows whose Year is
below yr * 12, and the balance of the last row of year yr, falling back to
the last row of the frame (0 on an empty frame). -/
def summaryPoint (df : List Entry) (yr : ℤ) : YearSummary :=
  let sliceDf := df.filter fun e => e.year < yr * 12
  let totalPayment := (sliceDf.map Entry.totalPayment).sum
  let totalInterest := (sliceDf.map Entry.interest).sum
  let remainingBalance :=
    match (df.filter fun e => e.year = yr).getLast? with
    | some e => e.balance
    | none =>
      match df.getLast? with
      | some e => e.balance
      | none => 0
  { year := yr, totalPayment := pyRound totalPayment,
    totalInterest := pyRound totalInterest,
    remainingBalance := pyRound remainingBalance }

/-- get_summary_points(df) with its default checkpoint years. -/
def get_summary_points (df : List Entry) : List YearSummary :=
  summaryCheckpointYears.map (summaryPoint df)

section RoundingLemmas

lemma pyRound_le (q : ℚ) : (pyRound q : ℚ) ≤ q + 1/2 := by
  unfold pyRound
  split_ifs <;> push_cast <;>
    linarith [Int.floor_le q, Int.lt_floor_add_one q]

lemma le_pyRound (q : ℚ) : q - 1/2 ≤ (pyRound q : ℚ) := by
  unfold pyRound
  split_ifs <;> push_cast <;>
    linarith [Int.floor_le q, Int.lt_floor_add_one q]

lemma pyRound_mono {x y : ℚ} (h : x ≤ y) : pyRound x ≤ pyRound y := by
  by_contra hc
  push_neg at hc
  have h1 : (pyRound y : ℚ) + 1 ≤ (pyRound x : ℚ) := by
    exact_mod_cast Int.add_one_le_iff.mpr hc
  have h2 := pyRound_le x
  have h3 := le_pyRound y
  have hxy : x = y := le_antisymm h (by linarith)
  subst hxy
  exact lt_irrefl _ hc

lemma round2_mono {x y : ℚ} (h : x ≤ y) : round2 x ≤ round2 y := by
  unfold round2
  have h1 := pyRound_mono (mul_le_mul_of_nonneg_right h (by norm_num : (0:ℚ) ≤ 100))
  have h2 : (pyRound (x * 100) : ℚ) ≤ (pyRound (y * 100) : ℚ) := by exact_mod_cast h1
  linarith

end RoundingLemmas

section FindSomeLemmas

variable {α β : Type}

lemma findSome?_eq_none_iff {f : α → Option β} {l : List α} :
    l.findSome? f = none ↔ ∀ a ∈ l, f a = none := by
  induction l with
  | nil => simp [List.findSome?]
  | cons a l ih =>
    rw [List.findSome?_cons]
    cases hfa : f a <;> simp [hfa, ih]

lemma findSome?_append_none {f : α → Option β} {l1 : List α} (l2 : List α)
    (h : l1.findSome? f = none) :
    (l1 ++ l2).findSome? f = l2.findSome? f := by
  induction l1 with
  | nil => simp
  | cons a l1 ih =>
    rw [List.findSome?_cons] at h
    rw [List.cons_append, List.findSome?_cons]
    cases hfa : f a with
    | some b => simp [hfa] at h
    | none => simp only [hfa] at h ⊢; exact ih h

lemma findSome?_append_some {f : α → Option β} {l1 : List α} (l2 : List α) {b : β}
    (h : l1.findSome? f = some b) :
    (l1 ++ l2).findSome? f = some b := by
  induction l1 with
  | nil => simp [List.findSome?] at h
  | cons a l1 ih =>
    rw [List.findSome?_cons] at h
    rw [List.cons_append, List.findSome?_cons]
    cases hfa : f a with
    | some c => simp only [hfa] at h ⊢; exact h
    | none => simp only [hfa] at h ⊢; exact ih h

lemma findSome?_range_eq_some {f : ℕ → Option β} {n : ℕ} {b : β}
    (h : (List.range n).findSome? f = some b) :
    ∃ p, p < n ∧ f p = some b ∧ ∀ q, q < p → f q = none := by
  induction n with
  | zero => simp [List.findSome?] at h
  | succ n ih =>
    rw [List.range_succ] at h
    cases hn : (List.range n).findSome? f with
    | some c =>
      rw [findSome?_append_some [n] hn] at h
      obtain rfl : c = b := by simpa using h
      obtain ⟨p, hp, hfp, hq⟩ := ih hn
      exact ⟨p, Nat.lt_succ_of_lt hp, hfp, hq⟩
    | none =>
      rw [findSome?_append_none [n] hn] at h
      have hfn : f n = some b := by
        rw [List.findSome?_cons] at h
        cases hfa : f n with
        | some c => simp only [hfa] at h; exact h
        | none => simp only [hfa] at h; simp [List.findSome?] at h
      refine ⟨n, Nat.lt_succ_self n, hfn, fun q hq => ?_⟩
      exact findSome?_eq_none_iff.mp hn q (List.mem_range.mpr hq)

lemma findSome?_map {γ : Type} (g : γ → α) (f : α → Option β) (l : List γ) :
    (l.map g).findSome? f = l.findSome? (fun x => f (g x)) := by
  induction l with
  | nil => simp
  | cons a l ih =>
    rw [List.map_cons, List.findSome?_cons, List.findSome?_cons]
    cases hfa : f (g a) <;> simp [hfa, ih]

end FindSomeLemmas

section GridLemmas

lemma pyInt_le {q : ℚ} (hq : 0 ≤ q) : (pyInt q : ℚ) ≤ q := by
  unfold pyInt
  rw [if_neg (not_lt.mpr hq)]
  exact Int.floor_le q

lemma pyInt_nonneg {q : ℚ} (hq : 0 ≤ q) : 0 ≤ pyInt q := by
  unfold pyInt
  rw [if_neg (not_lt.mpr hq)]
  exact Int.floor_nonneg.mpr hq

lemma mem_rangeDown {a b d : ℤ} {step : ℕ} :
    d ∈ rangeDown a b step ↔
      ∃ k, k < (if a ≤ b then 0 else (a - b - 1).toNat / step + 1) ∧
        d = a - (step : ℤ) * (k : ℤ) := by
  unfold rangeDown
  rw [List.mem_map]
  constructor
  · rintro ⟨k, hk, rfl⟩
    exact ⟨k, List.mem_range.mp hk, rfl⟩
  · rintro ⟨k, hk, rfl⟩
    exact ⟨k, List.mem_range.mpr hk, rfl⟩

lemma rangeDown_mem_bounds {a b d : ℤ} {step : ℕ} (hstep : 0 < step)
    (hd : d ∈ rangeDown a b step) : b < d ∧ d ≤ a := by
  obtain ⟨k, hk, rfl⟩ := mem_rangeDown.mp hd
  by_cases hab : a ≤ b
  · rw [if_pos hab] at hk; omega
  · rw [if_neg hab] at hk
    push_neg at hab
    have hk2 : k ≤ (a - b - 1).toNat / step := Nat.lt_succ_iff.mp hk
    have hmul : k * step ≤ (a - b - 1).toNat :=
      (Nat.le_div_iff_mul_le hstep).mp hk2
    have hmul2 : (k : ℤ) * step ≤ a - b - 1 := by
      have htn : ((a - b - 1).toNat : ℤ) = a - b - 1 := Int.toNat_of_nonneg (by omega)
      calc (k : ℤ) * step = ((k * step : ℕ) : ℤ) := by push_cast; ring
        _ ≤ ((a - b - 1).toNat : ℤ) := by exact_mod_cast hmul
        _ = a - b - 1 := htn
    constructor
    · nlinarith [hmul2]
    · have : (0 : ℤ) ≤ (step : ℤ) * k := by positivity
      omega

end GridLemmas

section BalanceLemmas

lemma balAfter_zero_rate (L pay : ℚ) (m : ℕ) :
    balAfter L pay 0 m = L - m * pay := by
  induction m with
  | zero => simp [balAfter]
  | succ m ih => rw [balAfter, ih]; push_cast; ring

lemma balAfter_closed (L r : ℚ) (n : ℕ) (hr : 0 < r) (hn : n ≠ 0) (m : ℕ) :
    balAfter L (L * r * (1 + r) ^ n / ((1 + r) ^ n - 1)) r m =
      L * ((1 + r) ^ n - (1 + r) ^ m) / ((1 + r) ^ n - 1) := by
  have hq : (1 : ℚ) < 1 + r := by linarith
  have hD : (0 : ℚ) < (1 + r) ^ n - 1 := by
    have := one_lt_pow₀ hq hn
    linarith
  have hD0 : (1 + r) ^ n - 1 ≠ 0 := ne_of_gt hD
  induction m with
  | zero =>
    rw [balAfter]
    field_simp
  | succ m ih =>
    rw [balAfter, ih]
    field_simp
    ring

lemma balAfter_closed_antitone (L r : ℚ) (n : ℕ) (hL : 0 < L) (hr : 0 < r)
    (hn : n ≠ 0) (m : ℕ) :
    balAfter L (L * r * (1 + r) ^ n / ((1 + r) ^ n - 1)) r (m + 1) ≤
      balAfter L (L * r * (1 + r) ^ n / ((1 + r) ^ n - 1)) r m := by
  have hq : (1 : ℚ) < 1 + r := by linarith
  have hD : (0 : ℚ) < (1 + r) ^ n - 1 := by
    have := one_lt_pow₀ hq hn
    linarith
  rw [balAfter_closed L r n hr hn, balAfter_closed L r n hr hn]
  rw [div_le_div_iff_of_pos_right hD]
  have hpow : (1 + r) ^ m ≤ (1 + r) ^ (m + 1) :=
    pow_le_pow_right₀ (le_of_lt hq) (Nat.le_succ m)
  nlinarith

lemma balAfter_closed_nonneg (L r : ℚ) (n : ℕ) (hL : 0 < L) (hr : 0 < r)
    (hn : n ≠ 0) {m : ℕ} (hm : m ≤ n) :
    0 ≤ balAfter L (L * r * (1 + r) ^ n / ((1 + r) ^ n - 1)) r m := by
  have hq : (1 : ℚ) < 1 + r := by linarith
  have hD : (0 : ℚ) < (1 + r) ^ n - 1 := by
    have := one_lt_pow₀ hq hn
    linarith
  rw [balAfter_closed L r n hr hn]
  have hpow : (1 + r) ^ m ≤ (1 + r) ^ n := pow_le_pow_right₀ (le_of_lt hq) hm
  apply div_nonneg _ (le_of_lt hD)
  nlinarith

end BalanceLemmas

section OptimizerLemmas

/-- Feasibility of one (down payment, point count) candidate of the optimizer
grid: positive loan amount, affordable point cost, and total monthly payment
(P and I plus PMI) at or under the ceiling. -/
def feasiblePoint (homePrice totalCash maxMonthly pmiRate baseRate : ℚ)
    (months : ℤ) (dp : ℤ) (p : ℕ) : Prop :=
  0 < homePrice - (dp : ℚ) ∧
  pointCost (homePrice - (dp : ℚ)) p ≤ max (totalCash - (dp : ℚ)) 0 ∧
  pointPayment (homePrice - (dp : ℚ)) months (pointRate baseRate p) +
      startPmi (homePrice - (dp : ℚ)) homePrice pmiRate ≤ maxMonthly

instance feasiblePointDecidable (homePrice totalCash maxMonthly pmiRate
    baseRate : ℚ) (months : ℤ) (dp : ℤ) (p : ℕ) :
    Decidable (feasiblePoint homePrice totalCash maxMonthly pmiRate baseRate
      months dp p) := by
  unfold feasiblePoint
  infer_instance

lemma evalPoint_eq_some {homePrice totalCash maxMonthly pmiRate baseRate : ℚ}
    {months : ℤ} {dp : ℤ} {p : ℕ} {cfg : LoanConfig}
    (he : evalPoint homePrice totalCash maxMonthly pmiRate baseRate months dp p
      = some cfg) :
    pointCost (homePrice - (dp : ℚ)) p ≤ max (totalCash - (dp : ℚ)) 0 ∧
    pointPayment (homePrice - (dp : ℚ)) months (pointRate baseRate p) +
        startPmi (homePrice - (dp : ℚ)) homePrice pmiRate ≤ maxMonthly ∧
    cfg = { downPayment := (dp : ℚ), loanAmount := homePrice - (dp : ℚ),
            rate := pointRate baseRate p,
            monthlyPayment :=
              pointPayment (homePrice - (dp : ℚ)) months (pointRate baseRate p),
            pmi := startPmi (homePrice - (dp : ℚ)) homePrice pmiRate,
            points := p,
            extraCosts := pointCost (homePrice - (dp : ℚ)) p } := by
  unfold evalPoint at he
  dsimp only at he
  split_ifs at he with h1 h2
  · exact ⟨not_lt.mp h1, h2, (Option.some_inj.mp he).symm⟩

lemma evalPoint_eq_none {homePrice totalCash maxMonthly pmiRate baseRate : ℚ}
    {months : ℤ} {dp : ℤ} {p : ℕ}
    (he : evalPoint homePrice totalCash maxMonthly pmiRate baseRate months dp p
      = none) :
    ¬ (pointCost (homePrice - (dp : ℚ)) p ≤ max (totalCash - (dp : ℚ)) 0 ∧
       pointPayment (homePrice - (dp : ℚ)) months (pointRate baseRate p) +
          startPmi (homePrice - (dp : ℚ)) homePrice pmiRate ≤ maxMonthly) := by
  unfold evalPoint at he
  dsimp only at he
  split_ifs at he with h1 h2
  · exact fun hc => absurd hc.1 (not_le.mpr h1)
  · exact fun hc => absurd hc.2 h2

lemma evalPoint_of_feasible {homePrice totalCash maxMonthly pmiRate baseRate : ℚ}
    {months : ℤ} {dp : ℤ} {p : ℕ}
    (hf : feasiblePoint homePrice totalCash maxMonthly pmiRate baseRate months
      dp p) :
    evalPoint homePrice totalCash maxMonthly pmiRate baseRate months dp p ≠
      none := by
  intro he
  exact evalPoint_eq_none he ⟨hf.2.1, hf.2.2⟩

lemma tryPoints_eq_some {homePrice totalCash maxMonthly pmiRate baseRate : ℚ}
    {months : ℤ} {dp : ℤ} {cfg : LoanConfig}
    (ht : tryPoints homePrice totalCash maxMonthly pmiRate baseRate months dp
      = some cfg) :
    0 < homePrice - (dp : ℚ) ∧
    ∃ p, p < 21 ∧
      evalPoint homePrice totalCash maxMonthly pmiRate baseRate months dp p
        = some cfg ∧
      ∀ q, q < p →
        evalPoint homePrice totalCash maxMonthly pmiRate baseRate months dp q
          = none := by
  unfold tryPoints at ht
  split_ifs at ht with h1
  exact ⟨not_le.mp h1, findSome?_range_eq_some ht⟩

lemma tryPoints_eq_none {homePrice totalCash maxMonthly pmiRate baseRate : ℚ}
    {months : ℤ} {dp : ℤ}
    (ht : tryPoints homePrice totalCash maxMonthly pmiRate baseRate months dp
      = none) :
    ∀ p, p < 21 →
      ¬ feasiblePoint homePrice totalCash maxMonthly pmiRate baseRate months
        dp p := by
  intro p hp hf
  unfold tryPoints at ht
  split_ifs at ht with h1
  · exact absurd hf.1 (not_lt.mpr h1)
  · exact evalPoint_of_feasible hf
      (findSome?_eq_none_iff.mp ht p (List.mem_range.mpr hp))

lemma minDownPaymentAdj_nonneg {homePrice maxDownPct totalCash : ℚ}
    (hhp : 0 ≤ homePrice) (hcash : 0 ≤ totalCash) (hpct : 0 ≤ maxDownPct) :
    0 ≤ minDownPaymentAdj homePrice maxDownPct totalCash := by
  unfold minDownPaymentAdj maxDownPayment
  dsimp only
  have h1 : (0:ℚ) ≤ homePrice * maxDownPct / 100 := by positivity
  have h2 : (0:ℚ) ≤ homePrice * 0.03 := by positivity
  split_ifs with h3 h4
  · norm_num
  · exact le_of_not_lt h4
  · exact h2

lemma searchGrid_nonneg {homePrice maxDownPct totalCash : ℚ}
    (hhp : 0 ≤ homePrice) (hcash : 0 ≤ totalCash) (hpct : 0 ≤ maxDownPct) :
    ∀ d ∈ searchGrid homePrice maxDownPct totalCash, 0 ≤ d := by
  intro d hd
  have hb := (rangeDown_mem_bounds (by norm_num) hd).1
  have hmin : 0 ≤ minDownPaymentAdj homePrice maxDownPct totalCash :=
    minDownPaymentAdj_nonneg hhp hcash hpct
  have : 0 ≤ pyInt (minDownPaymentAdj homePrice maxDownPct totalCash) :=
    pyInt_nonneg hmin
  omega

lemma searchGrid_le_max {homePrice maxDownPct totalCash : ℚ}
    (hhp : 0 ≤ homePrice) (hcash : 0 ≤ totalCash) (hpct : 0 ≤ maxDownPct) :
    ∀ d ∈ searchGrid homePrice maxDownPct totalCash,
      (d : ℚ) ≤ maxDownPayment homePrice maxDownPct totalCash := by
  intro d hd
  have hb := (rangeDown_mem_bounds (by norm_num) hd).2
  have hmax : 0 ≤ maxDownPayment homePrice maxDownPct totalCash := by
    unfold maxDownPayment
    rw [le_min_iff]
    constructor
    · positivity
    · exact hcash
  calc (d : ℚ) ≤ (pyInt (maxDownPayment homePrice maxDownPct totalCash) : ℚ) := by
        exact_mod_cast hb
    _ ≤ maxDownPayment homePrice maxDownPct totalCash := pyInt_le hmax

end OptimizerLemmas

section ScheduleLemmas

lemma buildRows_length (L pay mr hp pr x : ℚ) (sy months : ℤ) :
    (buildRows L pay mr hp pr x sy months).length = months.toNat := by
  simp [buildRows]

lemma buildRows_get (L pay mr hp pr x : ℚ) (sy months : ℤ) (k : ℕ)
    (h : k < (buildRows L pay mr hp pr x sy months).length) :
    (buildRows L pay mr hp pr x sy months).get ⟨k, h⟩ =
      roundEntry (rawRow L pay mr hp pr x sy k) := by
  simp [buildRows]

lemma amortization_ok {L ar : ℚ} {ty : ℤ} {hp : ℚ} {sy : ℤ} {pr extra : ℚ}
    {rows : List Entry}
    (hok : amortization_schedule L ar ty hp sy pr extra = Except.ok rows) :
    rows = [] ∨
      rows = buildRows L (schedulePayment L (ar / 12) (ty * 12)) (ar / 12) hp pr
        extra sy (ty * 12) := by
  unfold amortization_schedule at hok
  dsimp only at hok
  split_ifs at hok with h1 h2 h3 <;>
    first
      | exact Except.noConfusion hok
      | (injection hok with h
         first
           | exact Or.inl h.symm
           | exact Or.inr h.symm)

lemma schedulePayment_pos_rate {L mr : ℚ} (hL : 0 < L) (hmr : 0 < mr)
    (months : ℤ) : schedulePayment L mr months = npf_pmt mr months (-L) := by
  unfold schedulePayment
  rw [if_neg]
  push_neg
  exact ⟨hL, hmr⟩

lemma schedulePayment_zero_rate (L : ℚ) (months : ℤ) :
    schedulePayment L 0 months = L / (months : ℚ) := by
  unfold schedulePayment
  rw [if_pos (Or.inr le_rfl)]

lemma npf_pmt_eq_closed {r : ℚ} (hr : 0 < r) {months : ℤ} (hm : 0 ≤ months)
    (L : ℚ) :
    npf_pmt r months (-L) =
      L * r * (1 + r) ^ months.toNat / ((1 + r) ^ months.toNat - 1) := by
  unfold npf_pmt
  dsimp only
  rw [if_neg (ne_of_gt hr)]
  have hmn : ((months.toNat : ℤ)) = months := Int.toNat_of_nonneg hm
  have hz : ((1:ℚ) + r) ^ (months : ℤ) = (1 + r) ^ months.toNat := by
    calc ((1:ℚ) + r) ^ (months : ℤ) = (1 + r) ^ ((months.toNat : ℤ)) := by
          rw [hmn]
      _ = (1 + r) ^ months.toNat := zpow_natCast _ _
  rw [hz, div_div_eq_mul_div]
  ring

end ScheduleLemmas

/-- C10: valid_loan is total on numeric inputs and, in particular, decides
every configuration with a non-positive home price to false: the homePrice
guard precedes the loan-to-value division, so no division by zero is reached.
For every input with homePrice ≤ 0, valid_loan returns false. -/
theorem valid_loan_false_of_nonpos_homePrice
    (loanAmount monthlyPayment maxMonthly totalCash downPayment homePrice
      pmiRate : ℚ) (hhp : homePrice ≤ 0) :
    valid_loan loanAmount monthlyPayment maxMonthly totalCash downPayment
      homePrice pmiRate = false := by
  unfold valid_loan
  by_cases h1 : loanAmount ≤ 0
  · rw [if_pos h1]
  · rw [if_neg h1, if_pos hhp]

theorem valid_loan_false_of_nonpos_homePrice_witness :
    ((-3 : ℚ) ≤ 0) ∧
      valid_loan 5 1 10 1 1 (-3) 1 = false :=
  ⟨by norm_num,
    valid_loan_false_of_nonpos_homePrice 5 1 10 1 1 (-3) 1 (by norm_num)⟩

/-- C1 counterexample: the claim says valid_loan returns false whenever
downPayment + pointCost exceeds totalCash.  At loanAmount 100000,
monthlyPayment 1000, maxMonthly 2000, totalCash 0, downPayment 50000,
homePrice 150000, pmiRate 0.005, and a point cost of 0, the down payment plus
point cost (50000) exceeds the cash on hand (0), yet valid_loan accepts. -/
theorem valid_loan_accepts_cash_violation :
    valid_loan 100000 1000 2000 0 50000 150000 (5/1000) = true ∧
      (50000 : ℚ) + 0 > 0 := by
  constructor
  · with_unfolding_all decide
  · norm_num

/-- C1 amended: valid_loan performs no cash-on-hand check at all — the
comparison of down_payment against total_cash is commented out in the source —
so its verdict is independent of the downPayment and totalCash arguments. -/
theorem valid_loan_ignores_cash
    (loanAmount monthlyPayment maxMonthly homePrice pmiRate : ℚ)
    (totalCash downPayment totalCash2 downPayment2 : ℚ) :
    valid_loan loanAmount monthlyPayment maxMonthly totalCash downPayment
        homePrice pmiRate =
      valid_loan loanAmount monthlyPayment maxMonthly totalCash2 downPayment2
        homePrice pmiRate := rfl

/-- C3: in every schedule amortization_schedule produces with homePrice > 0,
the month-(k+1) PMI charge is loanAmount * pmiRate / 12 — computed from the
original loan amount — exactly when the post-payment balance divided by
homePrice strictly exceeds 0.80, and is 0 otherwise; in particular a balance
of exactly 80 percent of homePrice carries no PMI.  The produced row is the
rounded image of that exact month record. -/
theorem amortization_pmi_original_loan_strict
    (L ar : ℚ) (ty : ℤ) (hp : ℚ) (sy : ℤ) (pr extra : ℚ) (rows : List Entry)
    (hhp : 0 < hp)
    (hok : amortization_schedule L ar ty hp sy pr extra = Except.ok rows)
    (k : ℕ) (hk : k < rows.length) :
    rows.get ⟨k, hk⟩ =
      roundEntry (rawRow L (schedulePayment L (ar / 12) (ty * 12)) (ar / 12) hp
        pr extra sy k) ∧
    (rawRow L (schedulePayment L (ar / 12) (ty * 12)) (ar / 12) hp pr extra
          sy k).pmi =
      (if balAfter L (schedulePayment L (ar / 12) (ty * 12)) (ar / 12) (k + 1)
            / hp > 0.80
        then L * pr / 12 else 0) ∧
    (balAfter L (schedulePayment L (ar / 12) (ty * 12)) (ar / 12) (k + 1) =
        0.80 * hp →
      (rawRow L (schedulePayment L (ar / 12) (ty * 12)) (ar / 12) hp pr extra
          sy k).pmi = 0) := by
  rcases amortization_ok hok with rfl | heq
  · simp at hk
  · subst heq
    have hpmi : (rawRow L (schedulePayment L (ar / 12) (ty * 12)) (ar / 12) hp
        pr extra sy k).pmi =
        (if balAfter L (schedulePayment L (ar / 12) (ty * 12)) (ar / 12) (k + 1)
              / hp > 0.80
          then L * pr / 12 else 0) := by
      simp only [rawRow]
      rw [if_pos hhp]
    refine ⟨buildRows_get _ _ _ _ _ _ _ _ _ hk, hpmi, fun heq => ?_⟩
    rw [hpmi, heq]
    have hcancel : 0.80 * hp / hp = 0.80 :=
      mul_div_cancel_right₀ 0.80 (ne_of_gt hhp)
    rw [hcancel, if_neg (lt_irrefl (0.80 : ℚ))]

lemma clamp_mono {x y : ℚ} (h : x ≤ y) :
    (if x > 0 then x else 0) ≤ (if y > 0 then y else 0) := by
  split_ifs with h1 h2 <;> linarith

lemma buildRows_balance (L pay mr hp pr x : ℚ) (sy months : ℤ) (k : ℕ)
    (h : k < (buildRows L pay mr hp pr x sy months).length) :
    ((buildRows L pay mr hp pr x sy months).get ⟨k, h⟩).balance =
      round2 (if balAfter L pay mr (k + 1) > 0 then balAfter L pay mr (k + 1)
        else 0) := by
  rw [buildRows_get]
  rfl

lemma buildRows_tip (L pay mr hp pr x : ℚ) (sy months : ℤ) (k : ℕ)
    (h : k < (buildRows L pay mr hp pr x sy months).length) :
    ((buildRows L pay mr hp pr x sy months).get ⟨k, h⟩).totalInterestPaid =
      round2 (cumInterest L pay mr (k + 1)) := by
  rw [buildRows_get]
  rfl

/-- C4: for every schedule the engine produces from loanAmount > 0,
annualRate ≥ 0, termYears > 0 and homePrice > 0, the reported endingBalance is
non-increasing month over month and the reported cumulativeInterest is
non-decreasing month over month. -/
theorem amortization_balance_interest_monotone
    (L ar : ℚ) (ty : ℤ) (hp : ℚ) (sy : ℤ) (pr extra : ℚ) (rows : List Entry)
    (hL : 0 < L) (har : 0 ≤ ar) (hty : 0 < ty) (hhp : 0 < hp)
    (hok : amortization_schedule L ar ty hp sy pr extra = Except.ok rows)
    (k : ℕ) (hk1 : k + 1 < rows.length) :
    (rows.get ⟨k + 1, hk1⟩).balance ≤
        (rows.get ⟨k, Nat.lt_of_succ_lt hk1⟩).balance ∧
    (rows.get ⟨k, Nat.lt_of_succ_lt hk1⟩).totalInterestPaid ≤
        (rows.get ⟨k + 1, hk1⟩).totalInterestPaid := by
  rcases amortization_ok hok with rfl | heq
  · simp at hk1
  · subst heq
    have hk2 := hk1
    rw [buildRows_length] at hk2
    have hmr : 0 ≤ ar / 12 := by positivity
    have hmonths : (0 : ℤ) ≤ ty * 12 := by nlinarith
    have hn0 : (ty * 12).toNat ≠ 0 := by omega
    have hA : 0 ≤ balAfter L (schedulePayment L (ar / 12) (ty * 12)) (ar / 12)
        (k + 1) := by
      rcases eq_or_lt_of_le har with h0 | hpos
      · rw [← h0]
        rw [zero_div, schedulePayment_zero_rate, balAfter_zero_rate]
        have hmQ : (0 : ℚ) < ((ty * 12 : ℤ) : ℚ) := by
          have : (0 : ℤ) < ty * 12 := by nlinarith
          exact_mod_cast this
        have hpay : 0 ≤ L / ((ty * 12 : ℤ) : ℚ) := by positivity
        have hkm : ((k + 1 : ℕ) : ℚ) ≤ ((ty * 12 : ℤ) : ℚ) := by
          have h1 : (k + 1 : ℕ) ≤ (ty * 12).toNat := Nat.le_of_lt hk2
          have h2 : (((ty * 12).toNat : ℤ) : ℚ) = ((ty * 12 : ℤ) : ℚ) := by
            rw [Int.toNat_of_nonneg hmonths]
          calc ((k + 1 : ℕ) : ℚ) ≤ (((ty * 12).toNat : ℕ) : ℚ) := by
                exact_mod_cast h1
            _ = ((ty * 12 : ℤ) : ℚ) := by exact_mod_cast h2
        have hid : ((ty * 12 : ℤ) : ℚ) * (L / ((ty * 12 : ℤ) : ℚ)) = L := by
          field_simp
        nlinarith [mul_le_mul_of_nonneg_right hkm hpay]
      · have hmrpos : 0 < ar / 12 := by positivity
        rw [schedulePayment_pos_rate hL hmrpos,
          npf_pmt_eq_closed hmrpos hmonths]
        exact balAfter_closed_nonneg L (ar / 12) (ty * 12).toNat hL hmrpos hn0
          (Nat.le_of_lt hk2)
    have hA2 : balAfter L (schedulePayment L (ar / 12) (ty * 12)) (ar / 12)
        (k + 1 + 1) ≤
        balAfter L (schedulePayment L (ar / 12) (ty * 12)) (ar / 12) (k + 1) := by
      rcases eq_or_lt_of_le har with h0 | hpos
      · rw [← h0]
        rw [zero_div, schedulePayment_zero_rate, balAfter_zero_rate,
          balAfter_zero_rate]
        have hmQ : (0 : ℚ) < ((ty * 12 : ℤ) : ℚ) := by
          have : (0 : ℤ) < ty * 12 := by nlinarith
          exact_mod_cast this
        have hpay : 0 ≤ L / ((ty * 12 : ℤ) : ℚ) := by positivity
        have hcast : ((k + 1 : ℕ) : ℚ) ≤ ((k + 1 + 1 : ℕ) : ℚ) := by
          exact_mod_cast Nat.le_succ (k + 1)
        nlinarith [mul_le_mul_of_nonneg_right hcast hpay]
      · have hmrpos : 0 < ar / 12 := by positivity
        rw [schedulePayment_pos_rate hL hmrpos,
          npf_pmt_eq_closed hmrpos hmonths]
        exact balAfter_closed_antitone L (ar / 12) (ty * 12).toNat hL hmrpos hn0
          (k + 1)
    constructor
    · rw [buildRows_balance, buildRows_balance]
      exact round2_mono (clamp_mono hA2)
    · rw [buildRows_tip, buildRows_tip]
      apply round2_mono
      conv_rhs => rw [cumInterest]
      exact le_add_of_nonneg_right (mul_nonneg hA hmr)

theorem amortization_pmi_original_loan_strict_witness :
    (rawRow 100 (schedulePayment 100 (0 / 12) (1 * 12)) (0 / 12) 50 (1/10) 0 0
        0).pmi =
      (if balAfter 100 (schedulePayment 100 (0 / 12) (1 * 12)) (0 / 12) (0 + 1)
            / 50 > 0.80
        then 100 * (1/10) / 12 else 0) :=
  (amortization_pmi_original_loan_strict 100 0 1 50 0 (1/10) 0
      ((amortization_schedule 100 0 1 50 0 (1/10) 0).toOption.getD [])
      (by norm_num) (by with_unfolding_all rfl) 0
      (by with_unfolding_all decide)).2.1

theorem amortization_balance_interest_monotone_witness :
    (((amortization_schedule 100 0 1 50 0 (1/10) 0).toOption.getD []).get
        ⟨1, by with_unfolding_all decide⟩).balance ≤
      (((amortization_schedule 100 0 1 50 0 (1/10) 0).toOption.getD []).get
        ⟨0, by with_unfolding_all decide⟩).balance :=
  (amortization_balance_interest_monotone 100 0 1 50 0 (1/10) 0
      ((amortization_schedule 100 0 1 50 0 (1/10) 0).toOption.getD [])
      (by norm_num) (by norm_num) (by norm_num) (by norm_num)
      (by with_unfolding_all rfl) 0 (by with_unfolding_all decide)).1

lemma find_best_decomp {hp pct cash maxm pr base : ℚ} {ty : ℤ} {cfg : LoanConfig}
    (hhp : hp ≠ 0)
    (hfind : find_best_loan_a hp pct cash maxm pr base ty = some cfg) :
    ∃ k : ℕ,
      (pyInt (maxDownPayment hp pct cash) - (1000 : ℤ) * (k : ℤ)) ∈
        searchGrid hp pct cash ∧
      tryPoints hp cash maxm pr base (ty * 12)
        (max (pyInt (maxDownPayment hp pct cash) - (1000 : ℤ) * (k : ℤ)) 0) =
        some cfg ∧
      ∀ j : ℕ, j < k →
        tryPoints hp cash maxm pr base (ty * 12)
          (max (pyInt (maxDownPayment hp pct cash) - (1000 : ℤ) * (j : ℤ)) 0) =
          none := by
  unfold find_best_loan_a at hfind
  rw [if_neg hhp] at hfind
  unfold searchGrid rangeDown at hfind
  rw [findSome?_map] at hfind
  obtain ⟨k, hk, hsome, hnone⟩ := findSome?_range_eq_some hfind
  refine ⟨k, ?_, hsome, fun j hj => hnone j hj⟩
  exact mem_rangeDown.mpr ⟨k, hk, rfl⟩

/-- C5: when the optimizer returns a configuration, its down payment is a
point of the descending grid range(int(min(homePrice * maxDownPct / 100,
totalCash)), int(homePrice * 0.03) - 1, -1000); no strictly larger grid down
payment admits any feasible point count in 0..20, the returned point count is
feasible there, and no smaller point count is feasible at that down
payment. -/
theorem optimizer_first_largest_dp_smallest_points
    (hp pct cash maxm pr base : ℚ) (ty : ℤ) (cfg : LoanConfig)
    (hhp : 0 < hp) (hcash : 0 ≤ cash) (hpct : 0 ≤ pct)
    (hfind : find_best_loan_a hp pct cash maxm pr base ty = some cfg) :
    ∃ d ∈ searchGrid hp pct cash,
      cfg.downPayment = (d : ℚ) ∧
      cfg.points ≤ 20 ∧
      feasiblePoint hp cash maxm pr base (ty * 12) d cfg.points ∧
      (∀ q, q < cfg.points →
        ¬ feasiblePoint hp cash maxm pr base (ty * 12) d q) ∧
      (∀ d2 ∈ searchGrid hp pct cash, d < d2 →
        ∀ p, p ≤ 20 → ¬ feasiblePoint hp cash maxm pr base (ty * 12) d2 p) := by
  obtain ⟨k, hmem, hsome, hnone⟩ := find_best_decomp (ne_of_gt hhp) hfind
  have hd0 : 0 ≤ pyInt (maxDownPayment hp pct cash) - (1000 : ℤ) * (k : ℤ) :=
    searchGrid_nonneg (le_of_lt hhp) hcash hpct _ hmem
  rw [max_eq_left hd0] at hsome
  obtain ⟨hla, p, hp21, hev, hevnone⟩ := tryPoints_eq_some hsome
  obtain ⟨hpc, hpay, hcfg⟩ := evalPoint_eq_some hev
  have hpoints : cfg.points = p := by rw [hcfg]
  have hdp : cfg.downPayment =
      ((pyInt (maxDownPayment hp pct cash) - (1000 : ℤ) * (k : ℤ) : ℤ) : ℚ) := by
    rw [hcfg]
  refine ⟨_, hmem, hdp, ?_, ?_, ?_, ?_⟩
  · rw [hpoints]; omega
  · rw [hpoints]
    exact ⟨hla, hpc, hpay⟩
  · intro q hq hf
    rw [hpoints] at hq
    exact evalPoint_eq_none (hevnone q hq) ⟨hf.2.1, hf.2.2⟩
  · intro d2 hd2 hlt p2 hp2 hf
    obtain ⟨j, hj, rfl⟩ := mem_rangeDown.mp hd2
    have hjk : j < k := by omega
    have hd20 : 0 ≤ pyInt (maxDownPayment hp pct cash) - (1000 : ℤ) * (j : ℤ) :=
      searchGrid_nonneg (le_of_lt hhp) hcash hpct _ hd2
    have := hnone j hjk
    rw [max_eq_left hd20] at this
    exact tryPoints_eq_none this p2 (by omega) hf

theorem optimizer_first_largest_dp_smallest_points_witness :
    ∃ cfg, find_best_loan_a 1000 10 100 1000 (1/100) (6/100) 1 = some cfg ∧
      ∃ d ∈ searchGrid 1000 10 100,
        cfg.downPayment = (d : ℚ) ∧
        cfg.points ≤ 20 ∧
        feasiblePoint 1000 100 1000 (1/100) (6/100) (1 * 12) d cfg.points ∧
        (∀ q, q < cfg.points →
          ¬ feasiblePoint 1000 100 1000 (1/100) (6/100) (1 * 12) d q) ∧
        (∀ d2 ∈ searchGrid 1000 10 100, d < d2 →
          ∀ p, p ≤ 20 →
            ¬ feasiblePoint 1000 100 1000 (1/100) (6/100) (1 * 12) d2 p) := by
  have hs : (find_best_loan_a 1000 10 100 1000 (1/100) (6/100) 1).isSome =
      true := by
    with_unfolding_all decide
  obtain ⟨cfg, hcfg⟩ := Option.isSome_iff_exists.mp hs
  exact ⟨cfg, hcfg,
    optimizer_first_largest_dp_smallest_points 1000 10 100 1000 (1/100) (6/100)
      1 cfg (by norm_num) (by norm_num) (by norm_num) hcfg⟩

lemma pointPayment_pos {la : ℚ} (hla : 0 < la) {months : ℤ} (hm : 0 < months)
    {rate : ℚ} (hr : 0 < rate) : 0 < pointPayment la months rate := by
  have hmr : 0 < rate / 12 := by positivity
  have hcond : ¬(rate / 12 ≤ 0 ∧ la > 0) := fun hc =>
    absurd hmr (not_lt.mpr hc.1)
  unfold pointPayment
  dsimp only
  rw [if_neg hcond, npf_pmt_eq_closed hmr (le_of_lt hm)]
  have hq : (1 : ℚ) < 1 + rate / 12 := by linarith
  have hn0 : months.toNat ≠ 0 := by omega
  have hT : 1 < (1 + rate / 12) ^ months.toNat := one_lt_pow₀ hq hn0
  have h1 : 0 < la * (rate / 12) * (1 + rate / 12) ^ months.toNat := by
    positivity
  have h2 : 0 < (1 + rate / 12) ^ months.toNat - 1 := by linarith
  exact div_pos h1 h2

lemma startPmi_nonneg {la hp pr : ℚ} (hla : 0 ≤ la) (hpr : 0 ≤ pr) :
    0 ≤ startPmi la hp pr := by
  unfold startPmi
  split_ifs
  · positivity
  · exact le_refl 0

lemma pointRate_pos (base : ℚ) (p : ℕ) : 0 < pointRate base p :=
  lt_of_lt_of_le (by norm_num : (0 : ℚ) < 0.02) (le_max_right _ _)

/-- C6: with homePrice > 0, pmiRate ≥ 0 (the sidebar enforces pmiRate ≥ 0.002)
and termYears > 0 (the app fixes 30), every configuration find_best_loan_a
returns passes valid_loan, and a None result means no (down payment, point
count) pair of the search grid is feasible (affordable point cost and total
monthly payment, P and I plus PMI, at or under maxMonthly). -/
theorem optimizer_result_validates_and_none_infeasible
    (hp pct cash maxm pr base : ℚ) (ty : ℤ)
    (hhp : 0 < hp) (hpr : 0 ≤ pr) (hty : 0 < ty) :
    (∀ cfg, find_best_loan_a hp pct cash maxm pr base ty = some cfg →
      valid_loan cfg.loanAmount cfg.monthlyPayment maxm cash cfg.downPayment hp
        pr = true) ∧
    (find_best_loan_a hp pct cash maxm pr base ty = none →
      ∀ d ∈ searchGrid hp pct cash, ∀ p, p ≤ 20 →
        ¬ feasiblePoint hp cash maxm pr base (ty * 12) (max d 0) p) := by
  constructor
  · intro cfg hfind
    obtain ⟨k, hmem, hsome, hnone⟩ := find_best_decomp (ne_of_gt hhp) hfind
    obtain ⟨hla, p, hp21, hev, hevnone⟩ := tryPoints_eq_some hsome
    obtain ⟨hpc, hpay, hcfg⟩ := evalPoint_eq_some hev
    have hmonths : (0 : ℤ) < ty * 12 := by nlinarith
    have hpaypos : 0 < pointPayment
        (hp - ((max (pyInt (maxDownPayment hp pct cash) -
          (1000 : ℤ) * (k : ℤ)) 0 : ℤ) : ℚ)) (ty * 12)
        (pointRate base p) :=
      pointPayment_pos hla hmonths (pointRate_pos base p)
    have hpminn : 0 ≤ startPmi
        (hp - ((max (pyInt (maxDownPayment hp pct cash) -
          (1000 : ℤ) * (k : ℤ)) 0 : ℤ) : ℚ)) hp pr :=
      startPmi_nonneg (le_of_lt hla) hpr
    rw [hcfg]
    unfold valid_loan startPmi
    dsimp only
    rw [if_neg (not_le.mpr hla), if_neg (not_le.mpr hhp)]
    unfold startPmi at hpay hpminn
    rw [if_neg (not_or.mpr ⟨not_lt.mpr hpay, not_le.mpr (by linarith)⟩)]
  · intro hnone d hd p hp20 hf
    unfold find_best_loan_a at hnone
    rw [if_neg (ne_of_gt hhp)] at hnone
    have := findSome?_eq_none_iff.mp hnone d hd
    exact tryPoints_eq_none this p (by omega) hf

theorem optimizer_result_validates_witness :
    (∀ cfg, find_best_loan_a 1000 10 100 1000 (1/100) (6/100) 1 = some cfg →
      valid_loan cfg.loanAmount cfg.monthlyPayment 1000 100 cfg.downPayment
        1000 (1/100) = true) ∧
    (find_best_loan_a 1000 10 100 1000 (1/100) (6/100) 1 = none →
      ∀ d ∈ searchGrid 1000 10 100, ∀ p, p ≤ 20 →
        ¬ feasiblePoint 1000 100 1000 (1/100) (6/100) (1 * 12) (max d 0) p) :=
  optimizer_result_validates_and_none_infeasible 1000 10 100 1000 (1/100)
    (6/100) 1 (by norm_num) (by norm_num) (by norm_num)

/-- C9: every configuration the optimizer returns respects the cash budget at
the source: downPayment + extraCosts (the point cost) is at most totalCash,
and downPayment is at most min(homePrice * maxDownPct / 100, totalCash). -/
theorem optimizer_respects_cash_budget
    (hp pct cash maxm pr base : ℚ) (ty : ℤ) (cfg : LoanConfig)
    (hhp : 0 < hp) (hcash : 0 ≤ cash) (hpct : 0 ≤ pct)
    (hfind : find_best_loan_a hp pct cash maxm pr base ty = some cfg) :
    cfg.downPayment + cfg.extraCosts ≤ cash ∧
    cfg.downPayment ≤ min (hp * pct / 100) cash := by
  obtain ⟨k, hmem, hsome, hnone⟩ := find_best_decomp (ne_of_gt hhp) hfind
  have hd0 : 0 ≤ pyInt (maxDownPayment hp pct cash) - (1000 : ℤ) * (k : ℤ) :=
    searchGrid_nonneg (le_of_lt hhp) hcash hpct _ hmem
  rw [max_eq_left hd0] at hsome
  obtain ⟨hla, p, hp21, hev, hevnone⟩ := tryPoints_eq_some hsome
  obtain ⟨hpc, hpay, hcfg⟩ := evalPoint_eq_some hev
  have hdmax : ((pyInt (maxDownPayment hp pct cash) -
      (1000 : ℤ) * (k : ℤ) : ℤ) : ℚ) ≤ maxDownPayment hp pct cash :=
    searchGrid_le_max (le_of_lt hhp) hcash hpct _ hmem
  have hdcash : ((pyInt (maxDownPayment hp pct cash) -
      (1000 : ℤ) * (k : ℤ) : ℤ) : ℚ) ≤ cash :=
    le_trans hdmax (min_le_right _ _)
  have hmax : max (cash - ((pyInt (maxDownPayment hp pct cash) -
      (1000 : ℤ) * (k : ℤ) : ℤ) : ℚ)) 0 =
      cash - ((pyInt (maxDownPayment hp pct cash) -
        (1000 : ℤ) * (k : ℤ) : ℤ) : ℚ) :=
    max_eq_left (by linarith)
  rw [hmax] at hpc
  constructor
  · rw [hcfg]
    dsimp only
    linarith
  · rw [hcfg]
    exact hdmax

theorem optimizer_respects_cash_budget_witness :
    ∃ cfg, find_best_loan_a 1000 10 100 1000 (1/100) (6/100) 1 = some cfg ∧
      cfg.downPayment + cfg.extraCosts ≤ 100 ∧
      cfg.downPayment ≤ min ((1000 : ℚ) * 10 / 100) 100 := by
  have hs : (find_best_loan_a 1000 10 100 1000 (1/100) (6/100) 1).isSome =
      true := by
    with_unfolding_all decide
  obtain ⟨cfg, hcfg⟩ := Option.isSome_iff_exists.mp hs
  obtain ⟨h1, h2⟩ := optimizer_respects_cash_budget 1000 10 100 1000 (1/100)
    (6/100) 1 cfg (by norm_num) (by norm_num) (by norm_num) hcfg
  exact ⟨cfg, hcfg, h1, h2⟩

/-- C2: evaluation of get_summary_points at the code bug.  On the 24-month
zero-rate schedule of a 2400 loan (payment 100, no PMI), the year-1 checkpoint
reports a total payment of 2400 — the code slices Year < yr * 12, i.e. the
first twelve YEARS — whereas summing exactly the entries with yearIndex < 1,
as the claim states, gives 1200. -/
theorem get_summary_points_unit_mismatch :
    (get_summary_points ((amortization_schedule 2400 0 2 1000000 0 (1/100)
        0).toOption.getD [])).head? =
      some { year := 1, totalPayment := 2400, totalInterest := 0,
             remainingBalance := 0 } ∧
    ((((amortization_schedule 2400 0 2 1000000 0 (1/100) 0).toOption.getD
        []).filter fun e => e.year < 1).map Entry.totalPayment).sum = 1200 := by
  constructor
  · with_unfolding_all decide
  · with_unfolding_all decide

lemma buildRows_nil (L pay mr hp pr x : ℚ) (sy : ℤ) {months : ℤ}
    (hm : months ≤ 0) : buildRows L pay mr hp pr x sy months = [] := by
  unfold buildRows
  rw [Int.toNat_of_nonpos hm]
  rfl

lemma round2_zero : round2 0 = 0 := by
  unfold round2 pyRound
  norm_num

/-- C7 counterexample: the claim says a schedule build with homePrice ≤ 0
fails with an InvalidInputError and produces no schedule.  At loanAmount 1200,
rate 0, term 1 year and homePrice 0 the code instead returns a normal
12-entry schedule. -/
theorem amortization_no_error_on_nonpos_homeprice :
    amortization_schedule 1200 0 1 0 0 (1/100) 0 =
      Except.ok ((amortization_schedule 1200 0 1 0 0 (1/100) 0).toOption.getD
        []) ∧
    ((amortization_schedule 1200 0 1 0 0 (1/100) 0).toOption.getD []).length =
      12 := by
  constructor
  · with_unfolding_all rfl
  · with_unfolding_all decide

/-- C7 amended: no InvalidInputError exists in the code.  For termYears ≤ 0
the function returns an empty schedule — except termYears = 0 with a zero
monthly rate, where the Python division loan_amount / months raises an
uncaught ZeroDivisionError; for principal ≤ 0 with a positive rate it returns
an empty schedule; and for homePrice ≤ 0 (with positive principal, rate and
term) it silently produces a full non-empty schedule whose PMI is 0 every
month. -/
theorem amortization_degenerate_inputs
    (L ar : ℚ) (ty : ℤ) (hp : ℚ) (sy : ℤ) (pr extra : ℚ) :
    (ty ≤ 0 → ¬(ty = 0 ∧ ar = 0) →
      amortization_schedule L ar ty hp sy pr extra = Except.ok []) ∧
    (ty = 0 → ar = 0 →
      amortization_schedule L ar ty hp sy pr extra =
        Except.error "ZeroDivisionError") ∧
    (L ≤ 0 → 0 < ar →
      amortization_schedule L ar ty hp sy pr extra = Except.ok []) ∧
    (hp ≤ 0 → 0 < L → 0 < ar → 0 < ty →
      ∃ rows, amortization_schedule L ar ty hp sy pr extra = Except.ok rows ∧
        rows ≠ [] ∧ ∀ e ∈ rows, e.pmi = 0) := by
  refine ⟨?_, ?_, ?_, ?_⟩
  · intro hty hne
    unfold amortization_schedule
    dsimp only
    split_ifs with h1 h2 h3
    · exfalso
      apply hne
      have har : ar = 0 := by
        rcases div_eq_zero_iff.mp h2 with h | h
        · exact h
        · norm_num at h
      exact ⟨by omega, har⟩
    · rw [buildRows_nil _ _ _ _ _ _ _ (by omega : ty * 12 ≤ 0)]
    · rfl
    · rw [buildRows_nil _ _ _ _ _ _ _ (by omega : ty * 12 ≤ 0)]
  · intro h0 har
    subst h0
    subst har
    unfold amortization_schedule
    dsimp only
    rw [if_pos (Or.inr (by norm_num)), if_pos (by norm_num : (0:ℚ)/12 = 0),
      if_pos (by norm_num : (0:ℤ) * 12 = 0)]
  · intro hL har
    unfold amortization_schedule
    dsimp only
    rw [if_pos (Or.inl hL), if_neg (by positivity : (0:ℚ) < ar / 12).ne']
  · intro hhp hL har hty
    have hcond : ¬(L ≤ 0 ∨ ar / 12 ≤ 0) := by
      push_neg
      exact ⟨hL, by positivity⟩
    refine ⟨buildRows L (schedulePayment L (ar / 12) (ty * 12)) (ar / 12) hp pr
      extra sy (ty * 12), ?_, ?_, ?_⟩
    · unfold amortization_schedule
      dsimp only
      rw [if_neg hcond]
    · intro hnil
      have hlen := buildRows_length L (schedulePayment L (ar / 12) (ty * 12))
        (ar / 12) hp pr extra sy (ty * 12)
      rw [hnil] at hlen
      simp at hlen
      omega
    · intro e he
      obtain ⟨k, _, rfl⟩ := List.mem_map.mp he
      show round2 (rawRow L (schedulePayment L (ar / 12) (ty * 12)) (ar / 12)
        hp pr extra sy k).pmi = 0
      have hpmi : (rawRow L (schedulePayment L (ar / 12) (ty * 12)) (ar / 12)
          hp pr extra sy k).pmi = 0 := by
        simp only [rawRow]
        rw [if_neg (not_lt.mpr hhp), if_neg (by norm_num : ¬((0:ℚ) > 0.80))]
      rw [hpmi, round2_zero]

theorem amortization_degenerate_inputs_witness :
    ∃ rows, amortization_schedule 1200 12 1 0 0 (1/100) 0 = Except.ok rows ∧
      rows ≠ [] ∧ ∀ e ∈ rows, e.pmi = 0 :=
  (amortization_degenerate_inputs 1200 12 1 0 0 (1/100) 0).2.2.2
    (by norm_num) (by norm_num) (by norm_num) (by norm_num)

lemma round2_eq_of_strict_between {x : ℚ} {n : ℤ} (h1 : (n : ℚ) + 1/2 < x * 100)
    (h2 : x * 100 < (n : ℚ) + 1) : round2 x = ((n : ℚ) + 1) / 100 := by
  have hfl : ⌊x * 100⌋ = n := by
    rw [Int.floor_eq_iff]
    constructor
    · linarith
    · push_cast
      linarith
  unfold round2 pyRound
  rw [hfl, if_neg (by push_cast; linarith), if_pos (by push_cast; linarith)]
  push_cast
  ring

lemma head?_range_map {β : Type} (f : ℕ → β) (n : ℕ) (hn : n ≠ 0) :
    ((List.range n).map f).head? = some (f 0) := by
  cases n with
  | zero => exact absurd rfl hn
  | succ n =>
    rw [List.range_succ_eq_map]
    rfl

/-- C8 counterexample: the claim puts the level payment for principal 640000,
6.5 percent annual rate, 360 months at 4046.35 to two decimals; the annuity
formula the code evaluates gives 4045.2353…, which rounds to 4045.24. -/
theorem monthly_payment_not_4046_35 :
    round2 (npf_pmt ((13/200) / 12) (30 * 12) (-640000)) = 4045.24 ∧
      (4045.24 : ℚ) ≠ 4046.35 := by
  constructor
  · have h360 : ((30 * 12 : ℤ)).toNat = 360 := by decide
    rw [npf_pmt_eq_closed (by norm_num) (by norm_num), h360]
    rw [round2_eq_of_strict_between (n := 404523)]
    · norm_num
    · norm_num
    · norm_num
  · norm_num

/-- C8 amended: for the schedule built from loanAmount 640000 (homePrice
800000 minus downPayment 160000), annual rate 6.5 percent and a 30-year term,
the recorded level monthly payment is 4045.24 — the standard annuity formula
to two decimal places — not 4046.35. -/
theorem monthly_payment_4045_24 :
    (((amortization_schedule 640000 (13/200) 30 800000 0 (1/200)
        0).toOption.getD []).head?.map Entry.payment) = some (4045.24 : ℚ) := by
  have hok : amortization_schedule 640000 (13/200) 30 800000 0 (1/200) 0 =
      Except.ok (buildRows 640000
        (schedulePayment 640000 ((13/200) / 12) (30 * 12)) ((13/200) / 12)
        800000 (1/200) 0 0 (30 * 12)) := by
    unfold amortization_schedule
    dsimp only
    rw [if_neg (by norm_num)]
  rw [hok]
  show ((buildRows 640000 (schedulePayment 640000 ((13/200) / 12) (30 * 12))
      ((13/200) / 12) 800000 (1/200) 0 0 (30 * 12)).head?.map Entry.payment) =
    some (4045.24 : ℚ)
  unfold buildRows
  rw [head?_range_map _ _ (by decide : ((30 * 12 : ℤ)).toNat ≠ 0)]
  show some (round2 (schedulePayment 640000 ((13/200) / 12) (30 * 12))) =
    some (4045.24 : ℚ)
  rw [schedulePayment_pos_rate (by norm_num) (by norm_num)]
  have h360 : ((30 * 12 : ℤ)).toNat = 360 := by decide
  rw [npf_pmt_eq_closed (by norm_num) (by norm_num), h360]
  rw [round2_eq_of_strict_between (n := 404523)]
  · norm_num
  · norm_num
  · norm_num
